import Mathlib

/-!
# Notification dispatch: leaf notifiers and the composite `MultiNotifier`

A shallow embedding of `main.cpp`.  Two views of the same program are given.

* The value view: a notifier is a finite tree (`Notifier`), and `Notifier.send`
  is the text that `send(message)` writes to `cout`.
* The store view: objects live in cells of a free store (`World.heap`), a
  `Notifier*` is a cell address, `send` is dispatched on the object found at the
  address, and `delete` on a `Notifier*` releases one cell.

The store view is tied to the value view by `Notifier.construct`, which builds a
tree bottom-up with `new`, the only way the program builds notifiers.
-/

namespace SolidNotification

/-! ## Value view -/

/-- The class hierarchy under `Notifier`: four leaf classes and the composite,
whose only data member is `vector<Notifier*> notifiers`. -/
inductive Notifier where
  | EmailNotifier
  | SMSNotifier
  | PushNotifier
  | WhatsappNotifier
  | MultiNotifier (notifiers : List Notifier)


/-- The character `std::endl` inserts into the stream. -/
def endl : String := "\n"

mutual
/-- Text written to `cout` by `notifier->send(message)`, by dynamic type. -/
def Notifier.send : Notifier → String → String
  | .EmailNotifier, message => "Email Notification: " ++ message ++ endl
  | .SMSNotifier, message => "SMS Notification: " ++ message ++ endl
  | .PushNotifier, message => "Push Notification: " ++ message ++ endl
  | .WhatsappNotifier, message => "Whatsapp Notification: " ++ message ++ endl
  | .MultiNotifier notifiers, message => sendEach notifiers message
/-- The loop `for (Notifier* notifier : notifiers) notifier->send(message);`. -/
def sendEach : List Notifier → String → String
  | [], _ => ""
  | notifier :: rest, message => notifier.send message ++ sendEach rest message
end

mutual
/-- Leaf notifiers reached from a notifier, left to right, with multiplicity. -/
def Notifier.leaves : Notifier → List Notifier
  | .EmailNotifier => [.EmailNotifier]
  | .SMSNotifier => [.SMSNotifier]
  | .PushNotifier => [.PushNotifier]
  | .WhatsappNotifier => [.WhatsappNotifier]
  | .MultiNotifier notifiers => leavesEach notifiers
/-- Leaves of a sequence of notifiers, in sequence order. -/
def leavesEach : List Notifier → List Notifier
  | [] => []
  | notifier :: rest => notifier.leaves ++ leavesEach rest
end

mutual
/-- Depth of virtual `send` calls needed to run a notifier: 1 for a leaf. -/
def Notifier.depth : Notifier → Nat
  | .MultiNotifier notifiers => depthEach notifiers + 1
  | _ => 1
/-- Largest depth among a sequence of notifiers (0 for the empty sequence). -/
def depthEach : List Notifier → Nat
  | [] => 0
  | notifier :: rest => max notifier.depth (depthEach rest)
end

/-- Lines of a character stream: every newline character ends a line, and text
after the last newline forms a last line when it is not empty. -/
def linesOf : List Char → List (List Char)
  | [] => []
  | c :: cs =>
    if c = '\n' then [] :: linesOf cs
    else
      match linesOf cs with
      | [] => [[c]]
      | l :: ls => (c :: l) :: ls

/-- The lines of text that an output consists of. -/
def outputLines (out : String) : List String :=
  (linesOf out.data).map String.mk

/-! ## Store view -/

/-- An object on the free store: a leaf has no data member, a `MultiNotifier`
holds the addresses stored in its `vector<Notifier*>`. -/
inductive Obj where
  | EmailNotifier
  | SMSNotifier
  | PushNotifier
  | WhatsappNotifier
  | MultiNotifier (notifiers : List Nat)
  deriving DecidableEq

/-- Program state: the free store (cell `p` is `none` once `delete` released it)
and the text written to `cout` so far. -/
structure World where
  heap : List (Option Obj)
  cout : String
  deriving DecidableEq

/-- A `new` expression: the object is placed in a fresh cell, whose address is
returned. -/
def World.new (w : World) (o : Obj) : World × Nat :=
  ({ w with heap := w.heap ++ [some o] }, w.heap.length)

/-- A range-based `for` over a vector of pointers, running `body` on each
element in order. -/
def rangeFor (body : World → Nat → Option World) : World → List Nat → Option World
  | w, [] => some w
  | w, p :: rest =>
    match body w p with
    | none => none
    | some w' => rangeFor body w' rest

/-- The call `p->send(message)` on a `Notifier* p`, dispatched on the object
found at `p`.  `fuel` bounds the depth of nested calls; the result is `none`
when the fuel runs out or `p` does not point to a live object. -/
def World.send : Nat → World → Nat → String → Option World
  | 0, _, _, _ => none
  | fuel + 1, w, p, message =>
    match w.heap[p]? with
    | some (some .EmailNotifier) =>
      some { w with cout := w.cout ++ "Email Notification: " ++ message ++ endl }
    | some (some .SMSNotifier) =>
      some { w with cout := w.cout ++ "SMS Notification: " ++ message ++ endl }
    | some (some .PushNotifier) =>
      some { w with cout := w.cout ++ "Push Notification: " ++ message ++ endl }
    | some (some .WhatsappNotifier) =>
      some { w with cout := w.cout ++ "Whatsapp Notification: " ++ message ++ endl }
    | some (some (.MultiNotifier notifiers)) =>
      rangeFor (fun w' notifier => World.send fuel w' notifier message) w notifiers
    | _ => none

/-- The expression `delete p` on a `Notifier* p`.  `Notifier` declares no
destructor, so the destructor selected by the static type is the implicit,
non-virtual, trivial `~Notifier()`: the cell is released and no destructor of
the dynamic type runs (for a dynamic type other than `Notifier` the language
standard leaves the behaviour undefined; this is what implementations do).
`none` when `p` is not a live object. -/
def World.deleteNotifier (w : World) (p : Nat) : Option World :=
  match w.heap[p]? with
  | some (some _) => some { w with heap := w.heap.set p none }
  | _ => none

/-- The body of `MultiNotifier::~MultiNotifier`:
`for (Notifier* notifier : notifiers) delete notifier;`. -/
def World.destroyMultiNotifier (w : World) (notifiers : List Nat) : Option World :=
  rangeFor World.deleteNotifier w notifiers

mutual
/-- Building a notifier tree bottom-up with `new`, members before the composite
that receives their addresses. -/
def Notifier.construct : Notifier → World → World × Nat
  | .EmailNotifier, w => w.new .EmailNotifier
  | .SMSNotifier, w => w.new .SMSNotifier
  | .PushNotifier, w => w.new .PushNotifier
  | .WhatsappNotifier, w => w.new .WhatsappNotifier
  | .MultiNotifier notifiers, w =>
    (constructEach notifiers w).1.new (.MultiNotifier (constructEach notifiers w).2)
/-- Building the members of a braced list, left to right. -/
def constructEach : List Notifier → World → World × List Nat
  | [], w => (w, [])
  | notifier :: rest, w =>
    ((constructEach rest (notifier.construct w).1).1,
      (notifier.construct w).2 :: (constructEach rest (notifier.construct w).1).2)
end

/-- The function `main`: the state at `return 0` and the exit code.  Every `send`
is given the number of store cells as fuel. -/
def main : Option (World × Int) := do
  let w : World := { heap := [], cout := "" }
  let (w, email) := w.new .EmailNotifier
  let (w, sms) := w.new .SMSNotifier
  let (w, notifier) := w.new (.MultiNotifier [email, sms])
  let w ← w.send w.heap.length notifier "Account created!"
  let w ← w.deleteNotifier notifier
  let (w, notifier2) := w.new .EmailNotifier
  let (w, notifier3) := w.new .PushNotifier
  let w ← w.send w.heap.length notifier2 "New offer"
  let w ← w.send w.heap.length notifier3 "Order placed"
  let w ← w.deleteNotifier notifier2
  let w ← w.deleteNotifier notifier3
  let (w, notifier4) := w.new .WhatsappNotifier
  let w ← w.send w.heap.length notifier4 "Welcome to our app"
  let w ← w.deleteNotifier notifier4
  return (w, 0)


/-! ## Auxiliary definitions for the proofs -/

/-- The text a leaf writes before the newline; unused for a composite. -/
def lineOf (message : String) : Notifier → String
  | .EmailNotifier => "Email Notification: " ++ message
  | .SMSNotifier => "SMS Notification: " ++ message
  | .PushNotifier => "Push Notification: " ++ message
  | .WhatsappNotifier => "Whatsapp Notification: " ++ message
  | .MultiNotifier _ => ""

/-- Whether a notifier is one of the four leaf classes. -/
def Notifier.isLeaf : Notifier → Bool
  | .MultiNotifier _ => false
  | _ => true

mutual
/-- The store `h` holds the notifier tree `t` at address `p`. -/
def Holds (h : List (Option Obj)) : Notifier → Nat → Prop
  | .EmailNotifier, p => h[p]? = some (some .EmailNotifier)
  | .SMSNotifier, p => h[p]? = some (some .SMSNotifier)
  | .PushNotifier, p => h[p]? = some (some .PushNotifier)
  | .WhatsappNotifier, p => h[p]? = some (some .WhatsappNotifier)
  | .MultiNotifier ns, p =>
    ∃ ps, h[p]? = some (some (.MultiNotifier ps)) ∧ HoldsEach h ns ps
/-- The store `h` holds the trees `ns` at the addresses `ps`, pairwise. -/
def HoldsEach (h : List (Option Obj)) : List Notifier → List Nat → Prop
  | [], ps => ps = []
  | n :: ns, ps => ∃ q qs, ps = q :: qs ∧ Holds h n q ∧ HoldsEach h ns qs
end

/-! ## Lemmas on the value view -/

theorem sendEach_nil (message : String) : sendEach [] message = "" := by
  simp [sendEach]

theorem sendEach_cons (n : Notifier) (rest : List Notifier) (message : String) :
    sendEach (n :: rest) message = n.send message ++ sendEach rest message := by
  simp [sendEach]

theorem send_multi (ns : List Notifier) (message : String) :
    (Notifier.MultiNotifier ns).send message = sendEach ns message := by
  simp [Notifier.send]

theorem sendEach_append (xs ys : List Notifier) (message : String) :
    sendEach (xs ++ ys) message = sendEach xs message ++ sendEach ys message := by
  induction xs with
  | nil => simp [sendEach_nil]
  | cons x xs ih => simp [sendEach_cons, ih, String.append_assoc]

theorem join_foldl (acc : String) (l : List String) :
    List.foldl (fun r s => r ++ s) acc l = acc ++ List.foldl (fun r s => r ++ s) "" l := by
  induction l generalizing acc with
  | nil => simp
  | cons s l ih => rw [List.foldl_cons, List.foldl_cons, ih, ih ("" ++ s)]; simp [String.append_assoc]

theorem join_cons (s : String) (l : List String) :
    String.join (s :: l) = s ++ String.join l := by
  unfold String.join
  rw [List.foldl_cons, join_foldl]; simp

theorem sendEach_eq_join (ns : List Notifier) (message : String) :
    sendEach ns message = String.join (ns.map fun n => n.send message) := by
  induction ns with
  | nil => simp [sendEach_nil, String.join]
  | cons n ns ih => rw [sendEach_cons, List.map_cons, join_cons, ih]

mutual
theorem send_leaves : ∀ (t : Notifier) (message : String),
    sendEach t.leaves message = t.send message
  | .EmailNotifier, message => by simp [Notifier.leaves, sendEach]
  | .SMSNotifier, message => by simp [Notifier.leaves, sendEach]
  | .PushNotifier, message => by simp [Notifier.leaves, sendEach]
  | .WhatsappNotifier, message => by simp [Notifier.leaves, sendEach]
  | .MultiNotifier ns, message => by
    rw [send_multi, Notifier.leaves]; exact sendEach_leavesEach ns message
theorem sendEach_leavesEach : ∀ (ns : List Notifier) (message : String),
    sendEach (leavesEach ns) message = sendEach ns message
  | [], message => by simp [leavesEach]
  | n :: rest, message => by
    rw [leavesEach, sendEach_append, send_leaves n message, sendEach_leavesEach rest message,
      sendEach_cons]
end


/-! ## Lines of the output -/

theorem linesOf_line (l rest : List Char) (h : '\n' ∉ l) :
    linesOf (l ++ '\n' :: rest) = l :: linesOf rest := by
  induction l with
  | nil => simp [linesOf]
  | cons c l ih =>
    have hc : c ≠ '\n' := fun e => h (by simp [e])
    have hl : '\n' ∉ l := fun e => h (by simp [e])
    simp [linesOf, hc, ih hl]

theorem linesOf_leaf (pre : String) (message : String) (rest : List Char)
    (hpre : '\n' ∉ pre.data) (hM : '\n' ∉ message.data) :
    linesOf ((pre ++ message ++ endl).data ++ rest) = (pre ++ message).data :: linesOf rest := by
  have h : '\n' ∉ (pre ++ message).data := by simp [String.data_append, hpre, hM]
  have e : (pre ++ message ++ endl).data ++ rest = (pre ++ message).data ++ '\n' :: rest := by
    simp [String.data_append, endl]
  rw [e, linesOf_line _ _ h]

mutual
theorem linesOf_send (message : String) (hM : '\n' ∉ message.data) :
    ∀ (t : Notifier) (rest : List Char),
      linesOf ((t.send message).data ++ rest)
        = t.leaves.map (fun l => (lineOf message l).data) ++ linesOf rest
  | .EmailNotifier, rest => by
    simp only [Notifier.send, Notifier.leaves, lineOf, List.map, List.singleton_append, List.nil_append]
    exact linesOf_leaf _ _ _ (by decide) hM
  | .SMSNotifier, rest => by
    simp only [Notifier.send, Notifier.leaves, lineOf, List.map, List.singleton_append, List.nil_append]
    exact linesOf_leaf _ _ _ (by decide) hM
  | .PushNotifier, rest => by
    simp only [Notifier.send, Notifier.leaves, lineOf, List.map, List.singleton_append, List.nil_append]
    exact linesOf_leaf _ _ _ (by decide) hM
  | .WhatsappNotifier, rest => by
    simp only [Notifier.send, Notifier.leaves, lineOf, List.map, List.singleton_append, List.nil_append]
    exact linesOf_leaf _ _ _ (by decide) hM
  | .MultiNotifier ns, rest => by
    rw [send_multi, Notifier.leaves]; exact linesOf_sendEach message hM ns rest
theorem linesOf_sendEach (message : String) (hM : '\n' ∉ message.data) :
    ∀ (ns : List Notifier) (rest : List Char),
      linesOf ((sendEach ns message).data ++ rest)
        = (leavesEach ns).map (fun l => (lineOf message l).data) ++ linesOf rest
  | [], rest => by simp [sendEach, leavesEach]
  | n :: ns, rest => by
    rw [sendEach_cons, String.data_append, List.append_assoc, linesOf_send message hM n,
      linesOf_sendEach message hM ns rest, leavesEach, List.map_append, List.append_assoc]
end

theorem outputLines_send (message : String) (hM : '\n' ∉ message.data) (t : Notifier) :
    outputLines (t.send message) = t.leaves.map (lineOf message) := by
  have h := linesOf_send message hM t []
  have e : linesOf [] = [] := rfl
  simp only [e, List.append_nil] at h
  unfold outputLines
  rw [h, List.map_map]
  apply List.map_congr_left
  intro l _
  rfl

mutual
theorem leaves_isLeaf : ∀ (t : Notifier) (l : Notifier), l ∈ t.leaves → l.isLeaf = true
  | .EmailNotifier, l, h => by simp [Notifier.leaves] at h; subst h; rfl
  | .SMSNotifier, l, h => by simp [Notifier.leaves] at h; subst h; rfl
  | .PushNotifier, l, h => by simp [Notifier.leaves] at h; subst h; rfl
  | .WhatsappNotifier, l, h => by simp [Notifier.leaves] at h; subst h; rfl
  | .MultiNotifier ns, l, h => by
    rw [Notifier.leaves] at h; exact leavesEach_isLeaf ns l h
theorem leavesEach_isLeaf : ∀ (ns : List Notifier) (l : Notifier),
    l ∈ leavesEach ns → l.isLeaf = true
  | [], l, h => by simp [leavesEach] at h
  | n :: ns, l, h => by
    rw [leavesEach, List.mem_append] at h
    cases h with
    | inl h => exact leaves_isLeaf n l h
    | inr h => exact leavesEach_isLeaf ns l h
end

theorem lineOf_form (message : String) (l : Notifier) (h : l.isLeaf = true) :
    ∃ L ∈ ["Email", "SMS", "Push", "Whatsapp"], lineOf message l = L ++ " Notification: " ++ message := by
  cases l with
  | EmailNotifier => exact ⟨"Email", by simp, rfl⟩
  | SMSNotifier => exact ⟨"SMS", by simp, rfl⟩
  | PushNotifier => exact ⟨"Push", by simp, rfl⟩
  | WhatsappNotifier => exact ⟨"Whatsapp", by simp, rfl⟩
  | MultiNotifier ns => simp [Notifier.isLeaf] at h


/-! ## Lemmas on the store view -/

theorem getElem?_append_of_eq_some {α : Type} (h ext : List α) (p : Nat) (x : α)
    (e : h[p]? = some x) : (h ++ ext)[p]? = some x := by
  have hp : p < h.length := by
    by_contra hc
    rw [List.getElem?_eq_none (by omega)] at e
    exact Option.noConfusion e
  rw [List.getElem?_append_left hp, e]

mutual
theorem holds_append (h ext : List (Option Obj)) :
    ∀ (t : Notifier) (p : Nat), Holds h t p → Holds (h ++ ext) t p
  | .EmailNotifier, p, hp => by
    rw [Holds] at hp ⊢; exact getElem?_append_of_eq_some _ _ _ _ hp
  | .SMSNotifier, p, hp => by
    rw [Holds] at hp ⊢; exact getElem?_append_of_eq_some _ _ _ _ hp
  | .PushNotifier, p, hp => by
    rw [Holds] at hp ⊢; exact getElem?_append_of_eq_some _ _ _ _ hp
  | .WhatsappNotifier, p, hp => by
    rw [Holds] at hp ⊢; exact getElem?_append_of_eq_some _ _ _ _ hp
  | .MultiNotifier ns, p, hp => by
    rw [Holds] at hp ⊢
    obtain ⟨ps, e, hs⟩ := hp
    exact ⟨ps, getElem?_append_of_eq_some _ _ _ _ e, holdsEach_append h ext ns ps hs⟩
theorem holdsEach_append (h ext : List (Option Obj)) :
    ∀ (ns : List Notifier) (ps : List Nat), HoldsEach h ns ps → HoldsEach (h ++ ext) ns ps
  | [], ps, hp => by rw [HoldsEach] at hp ⊢; exact hp
  | n :: ns, ps, hp => by
    rw [HoldsEach] at hp ⊢
    obtain ⟨q, qs, e, hn, hs⟩ := hp
    exact ⟨q, qs, e, holds_append h ext n q hn, holdsEach_append h ext ns qs hs⟩
end

theorem new_cout (w : World) (o : Obj) : (w.new o).1.cout = w.cout := rfl

theorem new_heap (w : World) (o : Obj) : (w.new o).1.heap = w.heap ++ [some o] := rfl

theorem new_getElem? (w : World) (o : Obj) : (w.new o).1.heap[(w.new o).2]? = some (some o) := by
  simp [World.new]

mutual
theorem construct_spec : ∀ (t : Notifier) (w : World),
    (t.construct w).1.cout = w.cout ∧
    (∃ ext, (t.construct w).1.heap = w.heap ++ ext) ∧
    Holds (t.construct w).1.heap t (t.construct w).2
  | .EmailNotifier, w => by
    rw [Notifier.construct, Holds]; exact ⟨rfl, ⟨_, rfl⟩, new_getElem? w _⟩
  | .SMSNotifier, w => by
    rw [Notifier.construct, Holds]; exact ⟨rfl, ⟨_, rfl⟩, new_getElem? w _⟩
  | .PushNotifier, w => by
    rw [Notifier.construct, Holds]; exact ⟨rfl, ⟨_, rfl⟩, new_getElem? w _⟩
  | .WhatsappNotifier, w => by
    rw [Notifier.construct, Holds]; exact ⟨rfl, ⟨_, rfl⟩, new_getElem? w _⟩
  | .MultiNotifier ns, w => by
    obtain ⟨hc, ⟨ext, he⟩, hs⟩ := constructEach_spec ns w
    rw [Notifier.construct, Holds]
    refine ⟨?_, ⟨ext ++ [some (.MultiNotifier (constructEach ns w).2)], ?_⟩, ?_⟩
    · rw [new_cout, hc]
    · rw [new_heap, he, List.append_assoc]
    · exact ⟨_, new_getElem? _ _, by rw [new_heap]; exact holdsEach_append _ _ ns _ hs⟩
theorem constructEach_spec : ∀ (ns : List Notifier) (w : World),
    (constructEach ns w).1.cout = w.cout ∧
    (∃ ext, (constructEach ns w).1.heap = w.heap ++ ext) ∧
    HoldsEach (constructEach ns w).1.heap ns (constructEach ns w).2
  | [], w => by
    rw [constructEach, HoldsEach]; exact ⟨rfl, ⟨[], by simp⟩, rfl⟩
  | n :: ns, w => by
    obtain ⟨hc1, ⟨ext1, he1⟩, hs1⟩ := construct_spec n w
    obtain ⟨hc2, ⟨ext2, he2⟩, hs2⟩ := constructEach_spec ns (n.construct w).1
    rw [constructEach, HoldsEach]
    refine ⟨?_, ⟨ext1 ++ ext2, ?_⟩, ?_⟩
    · rw [hc2, hc1]
    · rw [he2, he1, List.append_assoc]
    · refine ⟨_, _, rfl, ?_, hs2⟩
      show Holds (constructEach ns (n.construct w).1).1.heap n (n.construct w).2
      rw [he2]; exact holds_append _ _ n _ hs1
end


theorem rangeFor_nil (body : World → Nat → Option World) (w : World) :
    rangeFor body w [] = some w := rfl

theorem rangeFor_cons_some (body : World → Nat → Option World) (w w' : World) (p : Nat)
    (rest : List Nat) (h : body w p = some w') :
    rangeFor body w (p :: rest) = rangeFor body w' rest := by
  simp [rangeFor, h]

theorem send_leaf_step (fuel : Nat) (w : World) (p : Nat) (message : String) (t : Notifier)
    (hl : t.isLeaf = true) (hp : Holds w.heap t p) :
    w.send (fuel + 1) p message = some { w with cout := w.cout ++ t.send message } := by
  cases t with
  | EmailNotifier =>
    rw [Holds] at hp; simp [World.send, hp, Notifier.send, String.append_assoc]
  | SMSNotifier =>
    rw [Holds] at hp; simp [World.send, hp, Notifier.send, String.append_assoc]
  | PushNotifier =>
    rw [Holds] at hp; simp [World.send, hp, Notifier.send, String.append_assoc]
  | WhatsappNotifier =>
    rw [Holds] at hp; simp [World.send, hp, Notifier.send, String.append_assoc]
  | MultiNotifier ns => simp [Notifier.isLeaf] at hl

mutual
theorem send_holds (message : String) : ∀ (t : Notifier) (fuel : Nat) (w : World) (p : Nat),
    t.depth ≤ fuel → Holds w.heap t p →
      w.send fuel p message = some { w with cout := w.cout ++ t.send message }
  | .EmailNotifier, fuel, w, p, hf, hp => by
    obtain ⟨f, rfl⟩ : ∃ f, fuel = f + 1 := ⟨fuel - 1, by simp [Notifier.depth] at hf; omega⟩
    exact send_leaf_step f w p message _ rfl hp
  | .SMSNotifier, fuel, w, p, hf, hp => by
    obtain ⟨f, rfl⟩ : ∃ f, fuel = f + 1 := ⟨fuel - 1, by simp [Notifier.depth] at hf; omega⟩
    exact send_leaf_step f w p message _ rfl hp
  | .PushNotifier, fuel, w, p, hf, hp => by
    obtain ⟨f, rfl⟩ : ∃ f, fuel = f + 1 := ⟨fuel - 1, by simp [Notifier.depth] at hf; omega⟩
    exact send_leaf_step f w p message _ rfl hp
  | .WhatsappNotifier, fuel, w, p, hf, hp => by
    obtain ⟨f, rfl⟩ : ∃ f, fuel = f + 1 := ⟨fuel - 1, by simp [Notifier.depth] at hf; omega⟩
    exact send_leaf_step f w p message _ rfl hp
  | .MultiNotifier ns, fuel, w, p, hf, hp => by
    rw [Notifier.depth] at hf
    obtain ⟨f, rfl⟩ : ∃ f, fuel = f + 1 := ⟨fuel - 1, by omega⟩
    rw [Holds] at hp
    obtain ⟨ps, e, hs⟩ := hp
    have h := sendEach_holds message ns f w ps (by omega) hs
    rw [send_multi]
    simp only [World.send, e]
    exact h
theorem sendEach_holds (message : String) :
    ∀ (ns : List Notifier) (fuel : Nat) (w : World) (ps : List Nat),
    depthEach ns ≤ fuel → HoldsEach w.heap ns ps →
      rangeFor (fun w' q => World.send fuel w' q message) w ps
        = some { w with cout := w.cout ++ sendEach ns message }
  | [], fuel, w, ps, _, hp => by
    rw [HoldsEach] at hp
    subst hp
    simp [rangeFor, sendEach]
  | n :: ns, fuel, w, ps, hf, hp => by
    rw [HoldsEach] at hp
    obtain ⟨q, qs, rfl, hn, hs⟩ := hp
    rw [depthEach] at hf
    have h1 := send_holds message n fuel w q (le_trans (le_max_left _ _) hf) hn
    have h2 := sendEach_holds message ns fuel { w with cout := w.cout ++ n.send message } qs
      (le_trans (le_max_right _ _) hf) hs
    rw [rangeFor_cons_some _ _ _ _ _ h1, h2, sendEach_cons, String.append_assoc]
end

theorem rangeFor_frame (body : World → Nat → Option World)
    (hb : ∀ w q w', body w q = some w' → w'.heap = w.heap) :
    ∀ (ps : List Nat) (w w' : World), rangeFor body w ps = some w' → w'.heap = w.heap := by
  intro ps
  induction ps with
  | nil =>
    intro w w' h
    rw [rangeFor_nil] at h
    cases h; rfl
  | cons p rest ih =>
    intro w w' h
    cases hb1 : body w p with
    | none => simp [rangeFor, hb1] at h
    | some w1 =>
      rw [rangeFor_cons_some _ _ _ _ _ hb1] at h
      rw [ih w1 w' h, hb w p w1 hb1]

theorem send_frame : ∀ (fuel : Nat) (w : World) (p : Nat) (message : String) (w' : World),
    w.send fuel p message = some w' → w'.heap = w.heap := by
  intro fuel
  induction fuel with
  | zero => intro w p message w' h; simp [World.send] at h
  | succ f ih =>
    intro w p message w' h
    unfold World.send at h
    split at h
    · cases h; rfl
    · cases h; rfl
    · cases h; rfl
    · cases h; rfl
    · exact rangeFor_frame _ (fun a q a' ha => ih a q message a' ha) _ _ _ h
    · exact Option.noConfusion h


/-! ## The leaf notifiers -/

/-- Claim C1, amended: for every message, each of the four leaf notifiers
writes its label, the text " Notification: ", the message and one newline; when
the message contains no newline character, that text is exactly one output
line, made of the label, " Notification: " and the message. -/
theorem leaf_send_one_line (message : String) :
    (Notifier.EmailNotifier.send message = "Email Notification: " ++ message ++ "\n" ∧
      Notifier.SMSNotifier.send message = "SMS Notification: " ++ message ++ "\n" ∧
      Notifier.PushNotifier.send message = "Push Notification: " ++ message ++ "\n" ∧
      Notifier.WhatsappNotifier.send message
        = "Whatsapp Notification: " ++ message ++ "\n") ∧
    ('\n' ∉ message.data →
      outputLines (Notifier.EmailNotifier.send message) = ["Email Notification: " ++ message] ∧
      outputLines (Notifier.SMSNotifier.send message) = ["SMS Notification: " ++ message] ∧
      outputLines (Notifier.PushNotifier.send message) = ["Push Notification: " ++ message] ∧
      outputLines (Notifier.WhatsappNotifier.send message)
        = ["Whatsapp Notification: " ++ message]) :=
  ⟨⟨rfl, rfl, rfl, rfl⟩,
    fun hM => ⟨outputLines_send message hM .EmailNotifier,
      outputLines_send message hM .SMSNotifier,
      outputLines_send message hM .PushNotifier,
      outputLines_send message hM .WhatsappNotifier⟩⟩

/-- The amended claim C1 at the message of the last call in the driver: the
text written, and the single line it forms. -/
theorem leaf_send_one_line_witness :
    '\n' ∉ "Welcome to our app".data ∧
    Notifier.WhatsappNotifier.send "Welcome to our app"
      = "Whatsapp Notification: Welcome to our app\n" ∧
    outputLines (Notifier.WhatsappNotifier.send "Welcome to our app")
      = ["Whatsapp Notification: Welcome to our app"] :=
  ⟨by decide, (leaf_send_one_line "Welcome to our app").1.2.2.2,
    ((leaf_send_one_line "Welcome to our app").2 (by decide)).2.2.2⟩

/-- Claim C1 fails for a message with a newline inside: `EmailNotifier` then
writes two output lines, not the single line made of label and message. -/
theorem leaf_send_newline_message :
    ¬ (outputLines (Notifier.EmailNotifier.send "a\nb") = ["Email Notification: " ++ "a\nb"]) ∧
    outputLines (Notifier.EmailNotifier.send "a\nb") = ["Email Notification: a", "b"] := by
  decide

/-! ## The composite -/

/-- Claim C2: a `MultiNotifier` over `notifiers` writes the outputs of its members
on the same message, joined in the order of the sequence, and nothing else. -/
theorem multi_send_concat (notifiers : List Notifier) (message : String) :
    (Notifier.MultiNotifier notifiers).send message
      = String.join (notifiers.map fun n => n.send message) := by
  rw [send_multi, sendEach_eq_join]

/-- Claim C3: a composite member can be replaced by its own members in place
without changing the output, and every notifier tree writes what the flat
composite of its leaves, taken left to right, writes. -/
theorem nesting_closure (message : String) :
    (∀ xs ys zs : List Notifier,
      (Notifier.MultiNotifier (xs ++ [Notifier.MultiNotifier ys] ++ zs)).send message
        = (Notifier.MultiNotifier (xs ++ ys ++ zs)).send message) ∧
    (∀ t : Notifier,
      t.send message = (Notifier.MultiNotifier t.leaves).send message ∧
      ∀ l ∈ t.leaves, l.isLeaf = true) := by
  constructor
  · intro xs ys zs
    simp only [send_multi, sendEach_append, sendEach_cons, sendEach_nil, String.append_empty]
  · intro t
    exact ⟨by rw [send_multi, send_leaves], leaves_isLeaf t⟩

/-- Claim C4: `new MultiNotifier({})` yields a live object, and `send` on it
returns with the state unchanged; the output of the empty composite is the
empty text, which has no line. -/
theorem empty_multi_send (message : String) :
    (Notifier.MultiNotifier []).send message = "" ∧
    outputLines ((Notifier.MultiNotifier []).send message) = [] ∧
    ∀ (w : World) (fuel : Nat),
      (w.new (.MultiNotifier [])).1.send (fuel + 1) (w.new (.MultiNotifier [])).2 message
        = some (w.new (.MultiNotifier [])).1 := by
  refine ⟨rfl, rfl, ?_⟩
  intro w fuel
  simp only [World.send, new_getElem?, rangeFor]

/-- Claim C5: `main` writes the five lines of the demonstration, in order, and
returns 0; the first two lines are the output of the composite of an
`EmailNotifier` and an `SMSNotifier` on "Account created!". -/
theorem main_output :
    main.map (fun r => (r.1.cout, r.2))
      = some ("Email Notification: Account created!\nSMS Notification: Account created!\n"
          ++ "Email Notification: New offer\nPush Notification: Order placed\n"
          ++ "Whatsapp Notification: Welcome to our app\n", 0) ∧
    main.map (fun r => outputLines r.1.cout)
      = some ["Email Notification: Account created!", "SMS Notification: Account created!",
          "Email Notification: New offer", "Push Notification: Order placed",
          "Whatsapp Notification: Welcome to our app"] ∧
    main.map (fun r => r.1.cout)
      = some ((Notifier.MultiNotifier [.EmailNotifier, .SMSNotifier]).send "Account created!"
          ++ Notifier.EmailNotifier.send "New offer"
          ++ Notifier.PushNotifier.send "Order placed"
          ++ Notifier.WhatsappNotifier.send "Welcome to our app") :=
  ⟨rfl, rfl, rfl⟩

/-- Claim C6: a composite of the single member `n` writes exactly what `n`
writes, for a leaf `n` and for a composite `n` alike; a caller that holds only a
`Notifier*` gets the same text on `cout` from `send` on either of them. -/
theorem singleton_multi_send (n : Notifier) (message : String) :
    (Notifier.MultiNotifier [n]).send message = n.send message ∧
    ∀ (w : World) (k : Nat),
      (((Notifier.MultiNotifier [n]).construct w).1.send (n.depth + 1 + k)
          ((Notifier.MultiNotifier [n]).construct w).2 message).map (fun v => v.cout)
        = ((n.construct w).1.send (n.depth + k) (n.construct w).2 message).map
            (fun v => v.cout) := by
  have e : (Notifier.MultiNotifier [n]).send message = n.send message := by
    rw [send_multi, sendEach_cons, sendEach_nil, String.append_empty]
  refine ⟨e, ?_⟩
  intro w k
  obtain ⟨hc1, _, hs1⟩ := construct_spec (.MultiNotifier [n]) w
  obtain ⟨hc2, _, hs2⟩ := construct_spec n w
  have hd : (Notifier.MultiNotifier [n]).depth ≤ n.depth + 1 + k := by
    simp [Notifier.depth, depthEach]
  rw [send_holds message _ _ _ _ hd hs1, send_holds message n _ _ _ (Nat.le_add_right _ _) hs2]
  simp [hc1, hc2, e]

/-- Claim C7 evaluated on the code: at the end of `main` the cells of the
`EmailNotifier` and the `SMSNotifier` given to the composite are still live,
since `delete notifier` released the composite alone; and running the body of
`~MultiNotifier` on a composite of a composite releases the inner composite
without releasing the inner member. -/
theorem members_not_destroyed :
    main.map (fun r => r.1.heap)
      = some [some .EmailNotifier, some .SMSNotifier, none, none, none, none] ∧
    (World.destroyMultiNotifier
        { heap := [some .EmailNotifier, some (.MultiNotifier [0]), some (.MultiNotifier [1])],
          cout := "" } [1]).map (fun w => w.heap)
      = some [some .EmailNotifier, none, some (.MultiNotifier [1])] :=
  ⟨rfl, rfl⟩

/-! ## Counting lines -/

/-- Claim C8, amended: for every message that contains no newline character,
a notifier tree writes one line per leaf reached, and every line is a label
among Email, SMS, Push, Whatsapp, then " Notification: ", then the message. -/
theorem send_line_count (t : Notifier) (message : String) (hM : '\n' ∉ message.data) :
    (outputLines (t.send message)).length = t.leaves.length ∧
    ∀ line ∈ outputLines (t.send message),
      ∃ L ∈ ["Email", "SMS", "Push", "Whatsapp"], line = L ++ " Notification: " ++ message := by
  rw [outputLines_send message hM t]
  refine ⟨List.length_map _ _, ?_⟩
  intro line hline
  obtain ⟨l, hl, rfl⟩ := List.mem_map.mp hline
  exact lineOf_form message l (leaves_isLeaf t l hl)

/-- The amended claim C8 on a composite nested in a composite. -/
theorem send_line_count_witness :
    '\n' ∉ "New offer".data ∧
    (outputLines ((Notifier.MultiNotifier
        [.EmailNotifier, .MultiNotifier [.PushNotifier, .SMSNotifier]]).send "New offer")).length
      = (Notifier.MultiNotifier
        [.EmailNotifier, .MultiNotifier [.PushNotifier, .SMSNotifier]]).leaves.length :=
  ⟨by decide, (send_line_count _ "New offer" (by decide)).1⟩

/-- Claim C8 fails for a message with a newline inside: two leaves then write
four lines, and the second line is not of the stated form. -/
theorem send_line_count_newline_message :
    ¬ ((outputLines ((Notifier.MultiNotifier [.EmailNotifier, .SMSNotifier]).send "x\ny")).length
        = (Notifier.MultiNotifier [.EmailNotifier, .SMSNotifier]).leaves.length) ∧
    (Notifier.MultiNotifier [.EmailNotifier, .SMSNotifier]).leaves.length = 2 ∧
    outputLines ((Notifier.MultiNotifier [.EmailNotifier, .SMSNotifier]).send "x\ny")
      = ["Email Notification: x", "y", "SMS Notification: x", "y"] := by
  decide

/-! ## Termination and frame -/

/-- Claim C9: for a notifier tree built bottom-up with `new`, `send` through the
pointer returns as soon as the fuel covers the depth of the tree, and at its
return the whole output of the tree, every member included, has been written. -/
theorem send_terminates (t : Notifier) (w : World) (message : String) (fuel : Nat)
    (hf : t.depth ≤ fuel) :
    (t.construct w).1.send fuel (t.construct w).2 message
      = some { heap := (t.construct w).1.heap, cout := w.cout ++ t.send message } := by
  obtain ⟨hc, _, hs⟩ := construct_spec t w
  rw [send_holds message t fuel (t.construct w).1 (t.construct w).2 hf hs, hc]

/-- The claim C9 on a composite nested in a composite, with fuel 3. -/
theorem send_terminates_witness :
    (Notifier.MultiNotifier [.EmailNotifier, .MultiNotifier [.SMSNotifier]]).depth ≤ 3 ∧
    ((Notifier.MultiNotifier [.EmailNotifier, .MultiNotifier [.SMSNotifier]]).construct
        { heap := [], cout := "" }).1.send 3 3 "hi"
      = some { heap := [some .EmailNotifier, some .SMSNotifier, some (.MultiNotifier [1]),
                 some (.MultiNotifier [0, 2])],
               cout := "Email Notification: hi\nSMS Notification: hi\n" } :=
  ⟨by decide, send_terminates _ { heap := [], cout := "" } "hi" 3 (by decide)⟩

/-- Claim C10: a `send` that returns leaves every cell of the store as it was,
so a second `send` on the same pointer finds the same notifier; on a tree built
with `new`, the output of two calls is the output of the first followed by the
output of the second. -/
theorem send_read_only (t : Notifier) (w : World) (m1 m2 : String) (fuel : Nat)
    (hf : t.depth ≤ fuel) :
    (∀ (f : Nat) (v v' : World) (p : Nat) (m : String),
      v.send f p m = some v' → v'.heap = v.heap) ∧
    ∃ w1 w2 : World,
      (t.construct w).1.send fuel (t.construct w).2 m1 = some w1 ∧
      w1.send fuel (t.construct w).2 m2 = some w2 ∧
      w1.heap = (t.construct w).1.heap ∧
      w2.heap = (t.construct w).1.heap ∧
      w1.cout = w.cout ++ t.send m1 ∧
      w2.cout = w.cout ++ t.send m1 ++ t.send m2 := by
  obtain ⟨hc, _, hs⟩ := construct_spec t w
  refine ⟨fun f v v' p m h => send_frame f v p m v' h, ?_⟩
  refine ⟨_, _, send_holds m1 t fuel _ _ hf hs, send_holds m2 t fuel _ _ hf hs, rfl, rfl, ?_, ?_⟩
  · simp [hc]
  · simp [hc]

/-- The claim C10 on the composite of the driver, sent to twice. -/
theorem send_read_only_witness :
    (Notifier.MultiNotifier [.EmailNotifier, .SMSNotifier]).depth ≤ 2 ∧
    ∃ w1 w2 : World,
      ((Notifier.MultiNotifier [.EmailNotifier, .SMSNotifier]).construct
          { heap := [], cout := "" }).1.send 2 2 "a" = some w1 ∧
      w1.send 2 2 "a" = some w2 ∧
      w1.heap = [some .EmailNotifier, some .SMSNotifier, some (.MultiNotifier [0, 1])] ∧
      w2.heap = [some .EmailNotifier, some .SMSNotifier, some (.MultiNotifier [0, 1])] ∧
      w1.cout = "Email Notification: a\nSMS Notification: a\n" ∧
      w2.cout = "Email Notification: a\nSMS Notification: a\n"
        ++ "Email Notification: a\nSMS Notification: a\n" :=
  ⟨by decide, (send_read_only _ { heap := [], cout := "" } "a" "a" 2 (by decide)).2⟩

end SolidNotification
